import Mathlib

/-!
Verification of the Greenhouse → Monday.com sync scripts
(`src/greenhouse.py` and `src/main.py`) against their specification.

The Python code is shallowly embedded: JSON scalar values become an
inductive type with Python truthiness, the paginated fetch becomes a
function over the list of page bodies the source API would return,
HTTP success/failure of the push stage is abstracted by an oracle
`post : MondayPayload → Bool`, and exceptions raised while processing a
record are modelled with `Except Unit`.
-/

deriving instance DecidableEq for Except

namespace Greenhouse

/-- A JSON scalar value as decoded by Python's `json` module.  `null` also
stands for an absent key, since `dict.get` returns `None` in both cases.
(Composite array/object values are not needed by any claim.) -/
inductive JValue where
  | null
  | bool (b : Bool)
  | num (n : Int)
  | str (s : String)
deriving DecidableEq

/-- Python truthiness of a decoded JSON scalar: `None`, `False`, `0` and
`""` are falsy. -/
def jvTruthy : JValue → Bool
  | .null => false
  | .bool b => b
  | .num n => n != 0
  | .str s => s != ""

/-- Python `str()` of a decoded JSON scalar. -/
def pyStr : JValue → String
  | .null => "None"
  | .bool b => if b then "True" else "False"
  | .num n => toString n
  | .str s => s

/-- Python `str.lower` restricted to the characters the program's fixed
tables can produce: ASCII `A`-`Z` and the Latin-1 uppercase range
(covering `É` in "Montréal") map to their lowercase forms. -/
def pyCharLower (c : Char) : Char :=
  if 'A' ≤ c ∧ c ≤ 'Z' then Char.ofNat (c.toNat + 32)
  else if ('À' ≤ c ∧ c ≤ 'Þ') ∧ c ≠ '×' then Char.ofNat (c.toNat + 32)
  else c

/-- Python `s.lower()`. -/
def pyLower (s : String) : String := ⟨s.data.map pyCharLower⟩

/-- `needle` occurs as a contiguous sublist of the second argument
(Python's `needle in haystack` on strings). -/
def containsSub (needle : List Char) : List Char → Bool
  | [] => needle.isEmpty
  | c :: rest => needle.isPrefixOf (c :: rest) || containsSub needle rest

/-- Python `sub in hay` for strings. -/
def strContains (hay sub : String) : Bool := containsSub sub.data hay.data

/-! ### Config constants (`src/greenhouse.py`, class `Config`) -/

def PER_PAGE : Nat := 100

def MONDAY_BOARD_ID : String := "MONDAY_BOARD_HERE"

def STUDIO_NAMES : List String :=
  ["PUBG STUDIOS", "Bluehole Studio", "RisingWings", "Striking Distance Studios",
   "Dreamotion", "Unknown Worlds", "5minlab", "KRAFTON Montréal Studio",
   "ReLU Games", "Flyway Games", "OVERDARE"]

def STUDIO_LOCATIONS : List (String × String) :=
  [("san ramon, ca", "Striking Distance Studios"),
   ("montréal", "KRAFTON Montréal Studio")]

/-! ### Studio resolution (`src/greenhouse.py`, `find_studio_in_title`) -/

/-- The `for studio in Config.STUDIO_NAMES` loop body: first studio whose
lowercased name occurs in the lowercased title, else `"Krafton"`. -/
def findStudioLoop (titleLower : String) : List String → String
  | [] => "Krafton"
  | studio :: rest =>
    if strContains titleLower (pyLower studio) then studio
    else findStudioLoop titleLower rest

/-- `find_studio_in_title`, parameterised by the two fixed tables it
consults (the source reads them from `Config`). -/
def findStudioTables (locTable : List (String × String)) (names : List String)
    (title location : String) : String :=
  match locTable.lookup (pyLower location) with
  | some s => s
  | none => findStudioLoop (pyLower title) names

/-- `find_studio_in_title(title, location)` from `src/greenhouse.py`:
location table first, then ordered substring scan of the studio names,
else the `"Krafton"` default. -/
def find_studio_in_title (title location : String) : String :=
  findStudioTables STUDIO_LOCATIONS STUDIO_NAMES title location

/-! ### `datetime.strptime(s, "%Y-%m-%dT%H:%M:%S.%fZ")`

Python's `strptime` matches each directive with a regex (`%Y` four digits,
`%m`/`%d`/`%H`/`%M`/`%S` one or two digits within their ranges, `%f` one to
six digits), requires the whole string to be consumed, and then the
`datetime` constructor validates the day against the month's length.
The result is modelled as microseconds since the Unix epoch. -/

def digitVal (c : Char) : Nat := c.toNat - 48

/-- Exactly four digits (the `%Y` directive). -/
def parseYear : List Char → Option (Nat × List Char)
  | a :: b :: c :: d :: rest =>
    if a.isDigit && b.isDigit && c.isDigit && d.isDigit then
      some (1000 * digitVal a + 100 * digitVal b + 10 * digitVal c + digitVal d, rest)
    else none
  | _ => none

/-- A two-digit value in `[lo, hi]`, else a single digit `≥ lo` (the regex
alternation used for `%m`, `%d`, `%H`, `%M`, `%S`). -/
def parse2or1 (lo hi : Nat) : List Char → Option (Nat × List Char)
  | c1 :: c2 :: rest =>
    if c1.isDigit && c2.isDigit && decide (lo ≤ 10 * digitVal c1 + digitVal c2)
        && decide (10 * digitVal c1 + digitVal c2 ≤ hi) then
      some (10 * digitVal c1 + digitVal c2, rest)
    else if c1.isDigit && decide (lo ≤ digitVal c1) then some (digitVal c1, c2 :: rest)
    else none
  | [c1] => if c1.isDigit && decide (lo ≤ digitVal c1) then some (digitVal c1, []) else none
  | [] => none

def expectChar (c : Char) : List Char → Option (List Char)
  | x :: rest => if x = c then some rest else none
  | [] => none

/-- Leading digits of the list, and the remainder. -/
def takeDigits : List Char → List Char × List Char
  | [] => ([], [])
  | c :: rest =>
    if c.isDigit then
      let p := takeDigits rest
      (c :: p.1, p.2)
    else ([], c :: rest)

def digitsVal (ds : List Char) : Nat := ds.foldl (fun a c => 10 * a + digitVal c) 0

def isLeapYear (y : Nat) : Bool := y % 4 == 0 && (y % 100 != 0 || y % 400 == 0)

def daysInMonth (y m : Nat) : Nat :=
  if m = 2 then (if isLeapYear y then 29 else 28)
  else if m = 4 ∨ m = 6 ∨ m = 9 ∨ m = 11 then 30
  else 31

/-- Days from 1970-01-01 to the proleptic-Gregorian date `y-m-d` (valid for
`y ≥ 1`, which `datetime` enforces). -/
def daysFromCivil (y m d : Nat) : Int :=
  let y' := if m ≤ 2 then y - 1 else y
  let era := y' / 400
  let yoe := y' % 400
  let doy := (153 * (if 2 < m then m - 3 else m + 9) + 2) / 5 + d - 1
  let doe := yoe * 365 + yoe / 4 - yoe / 100 + doy
  (era * 146097 + doe : Int) - 719468

def usPerDay : Int := 86400000000

/-- The `%Y-%m-%d` part of the format. -/
def parseDatePart (cs : List Char) : Option (Nat × Nat × Nat × List Char) := do
  let (y, r) ← parseYear cs
  let r ← expectChar '-' r
  let (mo, r) ← parse2or1 1 12 r
  let r ← expectChar '-' r
  let (d, r) ← parse2or1 1 31 r
  pure (y, mo, d, r)

/-- The `%H:%M:%S` part of the format, as seconds into the day. -/
def parseTimePart (cs : List Char) : Option (Nat × List Char) := do
  let (h, r) ← parse2or1 0 23 cs
  let r ← expectChar ':' r
  let (mi, r) ← parse2or1 0 59 r
  let r ← expectChar ':' r
  let (sec, r) ← parse2or1 0 59 r
  pure (h * 3600 + mi * 60 + sec, r)

/-- The `.%fZ` tail: microseconds, requiring the input to end there. -/
def parseFracPart (cs : List Char) : Option Nat := do
  let r ← expectChar '.' cs
  let p := takeDigits r
  if p.1.length = 0 ∨ 6 < p.1.length then none
  else
    match expectChar 'Z' p.2 with
    | some [] => pure (digitsVal p.1 * 10 ^ (6 - p.1.length))
    | _ => none

/-- `datetime.strptime(s, "%Y-%m-%dT%H:%M:%S.%fZ")` as microseconds since
the epoch; `none` is the `ValueError` path. -/
def parseTimestamp (s : String) : Option Int := do
  let (y, mo, d, r) ← parseDatePart s.data
  let r ← expectChar 'T' r
  let (secs, r) ← parseTimePart r
  let frac ← parseFracPart r
  if 1 ≤ y ∧ d ≤ daysInMonth y mo then
    some (daysFromCivil y mo d * usPerDay + ((secs * 1000000 + frac : Nat) : Int))
  else none

/-! ### The fetched data model -/

/-- The `"Days Open"` value: an integer, or the `"N/A"` sentinel string. -/
inductive DaysOpen where
  | num (n : Int)
  | na
deriving DecidableEq

/-- Python `str()` of the `"Days Open"` value. -/
def daysOpenStr : DaysOpen → String
  | .num n => toString n
  | .na => "N/A"

/-- One entry of a job's `offices` list; only `name` is read. -/
structure Office where
  name : Option String
deriving DecidableEq

/-- One entry of a job's `departments` list; only `name` is read. -/
structure Dept where
  name : Option String
deriving DecidableEq

/-- One entry of `hiring_team.recruiters` / `hiring_team.coordinators`;
the code indexes `member["first_name"]`, which raises when absent. -/
structure Member where
  first_name : Option String
deriving DecidableEq

structure HiringTeam where
  recruiters : Option (List Member)
  coordinators : Option (List Member)
deriving DecidableEq

/-- A raw job record from one page of the source API, with exactly the
fields the code reads; `none` stands for an absent key. -/
structure Job where
  id : JValue
  name : Option String
  opened_at : Option String
  offices : Option (List Office)
  departments : Option (List Dept)
  hiring_team : Option HiringTeam
deriving DecidableEq

/-- One entry of the `open_roles` list built by `get_open_roles`. -/
structure Role where
  jobId : JValue
  jobTitle : String
  location : String
  department : String
  daysOpen : DaysOpen
  studio : String
  openedAt : Option String
  recruiters : String
  coordinators : String
deriving DecidableEq

/-! ### Record processing (`src/greenhouse.py`, `get_open_roles` loop body)

An exception raised while processing a record is `Except.error ()`; in the
source it is caught by the page-level `except Exception` handler, which
logs and breaks out of the pagination loop. -/

/-- `job.get("offices", [{}])[0]` (and the same for `departments`): a
missing key defaults to `[{}]`, but a present empty list raises
`IndexError` at `[0]`. -/
def firstOffice : Option (List Office) → Except Unit Office
  | none => .ok ⟨none⟩
  | some [] => .error ()
  | some (o :: _) => .ok o

def firstDept : Option (List Dept) → Except Unit Dept
  | none => .ok ⟨none⟩
  | some [] => .error ()
  | some (d :: _) => .ok d

/-- `job.get("hiring_team", {}).get("recruiters", [])`. -/
def teamRecruiters (j : Job) : List Member :=
  match j.hiring_team with
  | none => []
  | some t => t.recruiters.getD []

/-- `job.get("hiring_team", {}).get("coordinators", [])`. -/
def teamCoordinators (j : Job) : List Member :=
  match j.hiring_team with
  | none => []
  | some t => t.coordinators.getD []

/-- `[member["first_name"] for member in ms]`: raises `KeyError` on a
member without a first name. -/
def memberNames : List Member → Except Unit (List String)
  | [] => .ok []
  | m :: rest =>
    match m.first_name with
    | none => .error ()
    | some n => (memberNames rest).map (n :: ·)

/-- `", ".join(member["first_name"] for member in ms)`. -/
def joinNames (ms : List Member) : Except Unit String :=
  (memberNames ms).map (String.intercalate ", ")

/-- The inline `days_open` expression in `get_open_roles`
(`src/greenhouse.py` lines 91-96): a falsy `opened_at` yields `"N/A"`, and
a `strptime` failure raises (`Except.error`), since that expression has no
handler of its own. -/
def daysOpenGh (now : Int) : Option String → Except Unit DaysOpen
  | none => .ok .na
  | some s =>
    if s = "" then .ok .na
    else
      match parseTimestamp s with
      | none => .error ()
      | some t => .ok (.num (Int.fdiv (now - t) usPerDay))

/-- The body of `for job in jobs` in `get_open_roles`: `ok none` when the
record is skipped for a falsy id, `ok (some role)` on success, `error` when
processing the record raises. `now` is `datetime.now(timezone.utc)` in
microseconds since the epoch. -/
def processJob (now : Int) (job : Job) : Except Unit (Option Role) :=
  if jvTruthy job.id = true then do
    let dOpen ← daysOpenGh now job.opened_at
    let off ← firstOffice job.offices
    let dep ← firstDept job.departments
    let recs ← joinNames (teamRecruiters job)
    let cos ← joinNames (teamCoordinators job)
    .ok (some
      { jobId := job.id
        jobTitle := job.name.getD "N/A"
        location := off.name.getD "Remote/Unspecified"
        department := dep.name.getD "N/A"
        daysOpen := dOpen
        studio := find_studio_in_title (job.name.getD "N/A") (off.name.getD "")
        openedAt := job.opened_at
        recruiters := recs
        coordinators := cos })
  else .ok none

/-- `for job in jobs` over one page: appends each produced role to the
accumulated `open_roles`; returns `false` when a record raised, in which
case the roles appended before the failing record are kept and the
pagination loop breaks. -/
def processJobs (now : Int) : List Job → List Role → List Role × Bool
  | [], acc => (acc, true)
  | j :: rest, acc =>
    match processJob now j with
    | .ok none => processJobs now rest acc
    | .ok (some r) => processJobs now rest (acc ++ [r])
    | .error _ => (acc, false)

/-- The `while True` pagination loop of `get_open_roles`, starting from
accumulated roles `acc`.  `pages` lists the JSON bodies the source API
returns for the remaining page numbers; any page past the end of the list
is an empty body.  Returns the accumulated roles and the number of page
requests issued from this point on. -/
def getOpenRolesAux (now : Int) : List (List Job) → List Role → List Role × Nat
  | [], acc => (acc, 1)
  | p :: rest, acc =>
    if p.isEmpty then (acc, 1)
    else
      let pr := processJobs now p acc
      if pr.2 then
        let r := getOpenRolesAux now rest pr.1
        (r.1, r.2 + 1)
      else (pr.1, 1)

/-- `get_open_roles()` from `src/greenhouse.py`, as a function of the page
bodies the source API returns: the produced roles together with the number
of page requests issued. -/
def getOpenRoles (now : Int) (pages : List (List Job)) : List Role × Nat :=
  getOpenRolesAux now pages []

/-- The pages actually processed before the loop sees an empty body. -/
def pagesBeforeEmpty (pages : List (List Job)) : List (List Job) :=
  pages.takeWhile (fun p => !p.isEmpty)

/-- The role produced for a record, if any. -/
def jobRole (now : Int) (j : Job) : Option Role :=
  match processJob now j with
  | .ok r => r
  | .error _ => none

def isErr : Except Unit (Option Role) → Bool
  | .error _ => true
  | .ok _ => false

/-- No record of the page raises while being processed. -/
def pageOk (now : Int) (jobs : List Job) : Bool :=
  jobs.all (fun j => !isErr (processJob now j))

/-! ### `src/main.py`: `get_job_details`'s days-open computation -/

/-- The `days_open` computation of `get_job_details` (`src/main.py` lines
60-67): the `"N/A"` sentinel when `opened_at` is falsy, and also when
`strptime` raises `ValueError` (caught there, unlike in
`src/greenhouse.py`). -/
def days_open_details (now : Int) : Option String → DaysOpen
  | none => .na
  | some s =>
    if s = "" then .na
    else
      match parseTimestamp s with
      | none => .na
      | some t => .num (Int.fdiv (now - t) usPerDay)

/-! ### Monday.com push (`src/greenhouse.py`, `create_monday_item` /
`send_roles_to_monday`) -/

/-- Python truthiness of the stored `"Opened At"` value. -/
def optStrTruthy : Option String → Bool
  | none => false
  | some s => s != ""

/-- Characters before the first `'T'` (all of them when there is none). -/
def beforeTChars : List Char → List Char
  | [] => []
  | c :: rest => if c = 'T' then [] else c :: beforeTChars rest

/-- `s.split("T")[0]`: the text before the first `"T"`. -/
def beforeT (s : String) : String := ⟨beforeTChars s.data⟩

/-- The `column_values` dict built by `create_monday_item`. -/
def column_values (role : Role) : List (String × JValue) :=
  [("job_title__1", .str (pyStr role.jobId)),
   ("department__1", .str role.department),
   ("text__1", .str role.location),
   ("text2__1", .str role.studio),
   ("text1__1", .str (daysOpenStr role.daysOpen)),
   ("date_Mjj5SQ4B",
     if optStrTruthy role.openedAt then .str (beforeT (role.openedAt.getD "")) else .null),
   ("text_Mjj5V04k", .str role.recruiters),
   ("text_Mjj5gr7J", .str role.coordinators)]

/-- The POST body of the create-item mutation. -/
structure MondayPayload where
  board_id : String
  item_name : String
  columnValues : List (String × JValue)
deriving DecidableEq

/-- `create_monday_item(role)`: builds the payload and returns `True` on a
successful call, `False` when the call raises a `RequestException` (e.g. an
error status from `raise_for_status`), which the function catches.  The
HTTP outcome is abstracted by the oracle `post`. -/
def create_monday_item (post : MondayPayload → Bool) (role : Role) : Bool :=
  post { board_id := MONDAY_BOARD_ID, item_name := role.jobTitle,
         columnValues := column_values role }

/-- `send_roles_to_monday(open_roles)`: `executor.map` evaluates
`create_monday_item` on every role (in submission order) and `sum` counts
the `True` results. -/
def send_roles_to_monday (post : MondayPayload → Bool) (roles : List Role) : Nat :=
  (roles.map (create_monday_item post)).count true

/-! ### The HTTP retry layer (`src/greenhouse.py` lines 40-46) -/

lemma isPrefixOf_map (f : Char → Char) :
    ∀ n h : List Char, n.isPrefixOf h = true → (n.map f).isPrefixOf (h.map f) = true := by
  intro n
  induction n with
  | nil => intro h _; simp [List.isPrefixOf]
  | cons a n ih =>
    intro h hp
    cases h with
    | nil => simp [List.isPrefixOf] at hp
    | cons b t =>
      simp only [List.isPrefixOf, Bool.and_eq_true, beq_iff_eq] at hp
      simp only [List.map, List.isPrefixOf, Bool.and_eq_true, beq_iff_eq]
      exact ⟨by rw [hp.1], ih t hp.2⟩

lemma containsSub_map (f : Char → Char) :
    ∀ n h : List Char, containsSub n h = true → containsSub (n.map f) (h.map f) = true := by
  intro n h
  induction h with
  | nil =>
    intro hc
    simp only [containsSub, List.isEmpty_iff] at hc
    simp [hc, containsSub]
  | cons c t ih =>
    intro hc
    simp only [containsSub, Bool.or_eq_true] at hc
    rcases hc with hc | hc
    · have := isPrefixOf_map f n (c :: t) hc
      simp only [List.map, containsSub, Bool.or_eq_true]
      exact Or.inl this
    · simp only [List.map, containsSub, Bool.or_eq_true]
      exact Or.inr (ih hc)

lemma pyLower_data (s : String) : (pyLower s).data = s.data.map pyCharLower := rfl

lemma findStudioLoop_eq_of_first (tl : String) :
    ∀ (pre : List String) (s : String) (suf : List String),
      (∀ x ∈ pre, strContains tl (pyLower x) = false) →
      strContains tl (pyLower s) = true →
      findStudioLoop tl (pre ++ s :: suf) = s := by
  intro pre
  induction pre with
  | nil => intro s suf _ hs; simp [findStudioLoop, hs]
  | cons a pre ih =>
    intro s suf hpre hs
    have ha : strContains tl (pyLower a) = false := hpre a (by simp)
    simp only [List.cons_append, findStudioLoop, ha]
    simp only [Bool.false_eq_true, if_false]
    exact ih s suf (fun x hx => hpre x (by simp [hx])) hs

lemma findStudioLoop_default (tl : String) :
    ∀ names : List String, (∀ x ∈ names, strContains tl (pyLower x) = false) →
      findStudioLoop tl names = "Krafton" := by
  intro names
  induction names with
  | nil => intro _; rfl
  | cons a rest ih =>
    intro h
    have ha : strContains tl (pyLower a) = false := h a (by simp)
    simp only [findStudioLoop, ha, Bool.false_eq_true, if_false]
    exact ih (fun x hx => h x (by simp [hx]))

lemma count_true_add_count_false : ∀ l : List Bool, l.count true + l.count false = l.length := by
  intro l
  induction l with
  | nil => rfl
  | cons b l ih => cases b <;> (simp [List.count_cons]; omega)

/-! ### Claim theorems -/

/-- C9: studio resolution is a pure deterministic function of the title,
the location and the fixed tables: equal inputs give equal outputs, and the
result is exactly the table-parameterised computation applied to the fixed
`Config` tables. -/
theorem find_studio_pure (t l t' l' : String) (h1 : t = t') (h2 : l = l') :
    find_studio_in_title t l = find_studio_in_title t' l' ∧
    find_studio_in_title t l = findStudioTables STUDIO_LOCATIONS STUDIO_NAMES t l := by
  subst h1; subst h2; exact ⟨rfl, rfl⟩

theorem find_studio_pure_witness :
    find_studio_in_title "Engineer" "Seoul" = find_studio_in_title "Engineer" "Seoul" :=
  (find_studio_pure "Engineer" "Seoul" "Engineer" "Seoul" rfl rfl).1

/-- C5: studio resolution tries the location table first (exact
case-insensitive match), then the first studio name in fixed list order
whose lowercase form occurs in the lowercase title (so any casing of a
studio name in the title matches), and otherwise returns `"Krafton"`; on
title `"KRAFTON Montréal Studio Engineer"` with location `"Montréal"` the
location rule yields `"KRAFTON Montréal Studio"`. -/
theorem find_studio_resolution :
    (∀ t l s, STUDIO_LOCATIONS.lookup (pyLower l) = some s →
      find_studio_in_title t l = s) ∧
    (∀ t l (pre : List String) s suf, STUDIO_LOCATIONS.lookup (pyLower l) = none →
      STUDIO_NAMES = pre ++ s :: suf →
      (∀ x ∈ pre, strContains (pyLower t) (pyLower x) = false) →
      strContains (pyLower t) (pyLower s) = true →
      find_studio_in_title t l = s) ∧
    (∀ t l, STUDIO_LOCATIONS.lookup (pyLower l) = none →
      (∀ x ∈ STUDIO_NAMES, strContains (pyLower t) (pyLower x) = false) →
      find_studio_in_title t l = "Krafton") ∧
    (∀ w s t : String, pyLower w = pyLower s → containsSub w.data t.data = true →
      strContains (pyLower t) (pyLower s) = true) ∧
    find_studio_in_title "KRAFTON Montréal Studio Engineer" "Montréal" =
      "KRAFTON Montréal Studio" := by
  refine ⟨?_, ?_, ?_, ?_, by decide⟩
  · intro t l s h
    simp [find_studio_in_title, findStudioTables, h]
  · intro t l pre s suf hl hnames hpre hs
    simp only [find_studio_in_title, findStudioTables, hl, hnames]
    exact findStudioLoop_eq_of_first (pyLower t) pre s suf hpre hs
  · intro t l hl hall
    simp only [find_studio_in_title, findStudioTables, hl]
    exact findStudioLoop_default (pyLower t) STUDIO_NAMES hall
  · intro w s t hws hocc
    have := containsSub_map pyCharLower w.data t.data hocc
    rw [show w.data.map pyCharLower = (pyLower s).data from by
      rw [← pyLower_data w, hws]] at this
    exact this

theorem find_studio_resolution_witness :
    find_studio_in_title "Engineer" "San Ramon, CA" = "Striking Distance Studios" ∧
    find_studio_in_title "Senior RELU GAMES Designer" "Seoul" = "ReLU Games" ∧
    find_studio_in_title "Engineer" "Seoul" = "Krafton" := by
  have h := find_studio_resolution
  refine ⟨h.1 "Engineer" "San Ramon, CA" _ (by decide), ?_, h.2.2.1 "Engineer" "Seoul" (by decide) (by decide)⟩
  exact h.2.1 "Senior RELU GAMES Designer" "Seoul"
    ["PUBG STUDIOS", "Bluehole Studio", "RisingWings", "Striking Distance Studios",
     "Dreamotion", "Unknown Worlds", "5minlab", "KRAFTON Montréal Studio"]
    "ReLU Games" ["Flyway Games", "OVERDARE"] (by decide) (by decide) (by decide) (by decide)

/-- C10: a record whose `"id"` is present but falsy (integer `0`, empty
string) is skipped by `if not job_id: continue` exactly as if the
identifier were missing (`null`), and contributes no Role. -/
theorem falsy_id_skipped (now : Int) (j : Job) (h : jvTruthy j.id = false) :
    processJob now j = .ok none ∧
    (∀ rest acc, processJobs now (j :: rest) acc = processJobs now rest acc) ∧
    (∀ rest acc, processJobs now (j :: rest) acc =
      processJobs now ({ j with id := JValue.null } :: rest) acc) := by
  have hpj : processJob now j = .ok none := by simp [processJob, h]
  have hnull : processJob now { j with id := JValue.null } = .ok none := by
    simp [processJob, jvTruthy]
  exact ⟨hpj, fun rest acc => by simp [processJobs, hpj],
    fun rest acc => by simp [processJobs, hpj, hnull]⟩

def jobFalsyNum : Job :=
  { id := .num 0, name := none, opened_at := none, offices := none,
    departments := none, hiring_team := none }

def jobFalsyStr : Job :=
  { id := .str "", name := some "Ghost", opened_at := none, offices := none,
    departments := none, hiring_team := none }

theorem falsy_id_skipped_witness :
    processJob 0 jobFalsyNum = .ok none ∧ processJobs 0 [jobFalsyStr] [] = ([], true) := by
  refine ⟨(falsy_id_skipped 0 jobFalsyNum (by decide)).1, ?_⟩
  rw [(falsy_id_skipped 0 jobFalsyStr (by decide)).2.1 [] []]
  rfl

/-- C8: the column mapping sends `opened_at` to the text before the first
`"T"` when it is present (truthy), and to an explicit JSON `null` (never an
empty string) when absent; the job identifier and the days-open value are
serialized as text strings. -/
theorem column_values_spec (role : Role) :
    (∀ s, role.openedAt = some s → s ≠ "" →
      (column_values role).lookup "date_Mjj5SQ4B" = some (.str (beforeT s))) ∧
    (role.openedAt = none →
      (column_values role).lookup "date_Mjj5SQ4B" = some JValue.null ∧
      (column_values role).lookup "date_Mjj5SQ4B" ≠ some (.str "")) ∧
    (∀ n, role.jobId = .num n →
      (column_values role).lookup "job_title__1" = some (.str (toString n))) ∧
    (∀ d, role.daysOpen = .num d →
      (column_values role).lookup "text1__1" = some (.str (toString d))) := by
  refine ⟨?_, ?_, ?_, ?_⟩
  · intro s h hne
    simp [column_values, List.lookup, optStrTruthy, h, hne]
  · intro h
    simp [column_values, List.lookup, optStrTruthy, h]
  · intro n h
    simp [column_values, List.lookup, pyStr, h]
  · intro d h
    simp [column_values, List.lookup, daysOpenStr, h]

def roleC8 : Role :=
  { jobId := .num 42, jobTitle := "T", location := "L", department := "D",
    daysOpen := .num 7, studio := "S",
    openedAt := some "2024-01-15T00:00:00.000000Z",
    recruiters := "", coordinators := "" }

theorem column_values_spec_witness :
    (column_values roleC8).lookup "date_Mjj5SQ4B" = some (.str "2024-01-15") ∧
    (column_values roleC8).lookup "job_title__1" = some (.str "42") ∧
    (column_values roleC8).lookup "text1__1" = some (.str "7") := by
  have h := column_values_spec roleC8
  refine ⟨?_, h.2.2.1 42 rfl, h.2.2.2 7 rfl⟩
  rw [h.1 "2024-01-15T00:00:00.000000Z" rfl (by decide)]
  decide

/-- C2: the push success count is the number of `True` results of the
per-role create calls: it never exceeds the number of submitted roles, it
equals the submitted count minus the number of failed calls, and each
role's contribution is independent of the other roles' outcomes. -/
theorem send_roles_count (post : MondayPayload → Bool) (roles : List Role) :
    send_roles_to_monday post roles ≤ roles.length ∧
    send_roles_to_monday post roles =
      roles.length - (roles.map (create_monday_item post)).count false ∧
    ∀ pre r suf,
      send_roles_to_monday post (pre ++ r :: suf) =
        send_roles_to_monday post pre +
          (if create_monday_item post r then 1 else 0) +
          send_roles_to_monday post suf := by
  have hle : send_roles_to_monday post roles ≤ roles.length := by
    calc send_roles_to_monday post roles ≤ (roles.map (create_monday_item post)).length :=
          List.count_le_length _ _
      _ = roles.length := List.length_map _ _
  refine ⟨hle, ?_, ?_⟩
  · have h := count_true_add_count_false (roles.map (create_monday_item post))
    rw [List.length_map] at h
    unfold send_roles_to_monday
    omega
  · intro pre r suf
    simp only [send_roles_to_monday, List.map_append, List.map_cons, List.count_append,
      List.count_cons]
    cases h : create_monday_item post r <;> (simp [h]; try omega)

/-- C6: `days_open` (the `get_job_details` computation, `src/main.py`) is
the `"N/A"` sentinel exactly when `opened_at` is absent or fails to parse,
and otherwise a non-negative whole-day difference `(now - opened_at).days`
whenever `opened_at` is at or before `now`. -/
theorem days_open_spec (now : Int) (o : Option String) :
    (days_open_details now o = .na ↔
      o = none ∨ ∃ s, o = some s ∧ parseTimestamp s = none) ∧
    ∀ s t, o = some s → parseTimestamp s = some t → t ≤ now →
      days_open_details now o = .num (Int.fdiv (now - t) usPerDay) ∧
      0 ≤ Int.fdiv (now - t) usPerDay := by
  cases o with
  | none =>
    refine ⟨by simp [days_open_details], ?_⟩
    intro s t h
    exact absurd h (by simp)
  | some s =>
    by_cases hs : s = ""
    · subst hs
      have hp : parseTimestamp "" = none := by decide
      refine ⟨by simp [days_open_details, hp], ?_⟩
      intro s' t h1 h2
      rw [(Option.some_inj.mp h1).symm] at h2
      rw [hp] at h2
      exact absurd h2 (by simp)
    · cases hp : parseTimestamp s with
      | none =>
        refine ⟨by simp [days_open_details, hs, hp], ?_⟩
        intro s' t h1 h2
        rw [(Option.some_inj.mp h1).symm, hp] at h2
        exact absurd h2 (by simp)
      | some t0 =>
        constructor
        · simp only [days_open_details, hs, hp, if_neg hs]
          constructor
          · intro h
            exact absurd h (by simp)
          · rintro (h | ⟨s', h1, h2⟩)
            · exact absurd h (by simp)
            · rw [(Option.some_inj.mp h1).symm, hp] at h2
              exact absurd h2 (by simp)
        · intro s' t h1 h2 h3
          rw [(Option.some_inj.mp h1).symm, hp] at h2
          have ht : t0 = t := Option.some_inj.mp h2
          subst ht
          refine ⟨by simp [days_open_details, hs, hp], ?_⟩
          exact Int.fdiv_nonneg (by omega) (by decide)

theorem days_open_spec_witness :
    days_open_details 1705276800000000 (some "2024-01-15T00:00:00.000000Z") = .num 0 ∧
    days_open_details 0 none = .na := by
  have h := (days_open_spec 1705276800000000 (some "2024-01-15T00:00:00.000000Z")).2
    "2024-01-15T00:00:00.000000Z" 1705276800000000 rfl (by decide) (by decide)
  refine ⟨?_, ((days_open_spec 0 none).1).mpr (Or.inl rfl)⟩
  rw [h.1]
  decide

/-! ### Helper lemmas for the fetch and retry theorems -/

lemma exBind_ok {α β : Type} (a : α) (f : α → Except Unit β) :
    (Except.ok a >>= f) = f a := rfl

lemma exBind_err {α β : Type} (f : α → Except Unit β) :
    ((Except.error () : Except Unit α) >>= f) = Except.error () := rfl

lemma processJob_eval (now : Int) (j : Job) (h1 : jvTruthy j.id = true)
    (d : DaysOpen) (hdo : daysOpenGh now j.opened_at = .ok d)
    (off : Office) (hof : firstOffice j.offices = .ok off)
    (dep : Dept) (hde : firstDept j.departments = .ok dep)
    (recs : String) (hre : joinNames (teamRecruiters j) = .ok recs)
    (cos : String) (hco : joinNames (teamCoordinators j) = .ok cos) :
    processJob now j = .ok (some
      { jobId := j.id
        jobTitle := j.name.getD "N/A"
        location := off.name.getD "Remote/Unspecified"
        department := dep.name.getD "N/A"
        daysOpen := d
        studio := find_studio_in_title (j.name.getD "N/A") (off.name.getD "")
        openedAt := j.opened_at
        recruiters := recs
        coordinators := cos }) := by
  unfold processJob
  rw [if_pos h1]
  simp [hdo, hof, hde, hre, hco, exBind_ok]

lemma processJob_err_of_step (now : Int) (j : Job) (h1 : jvTruthy j.id = true)
    (h : daysOpenGh now j.opened_at = .error () ∨ firstOffice j.offices = .error () ∨
      firstDept j.departments = .error () ∨ joinNames (teamRecruiters j) = .error () ∨
      joinNames (teamCoordinators j) = .error ()) :
    processJob now j = .error () := by
  unfold processJob
  rw [if_pos h1]
  cases hdo : daysOpenGh now j.opened_at with
  | error e => cases e; simp [exBind_err]
  | ok d =>
    cases hof : firstOffice j.offices with
    | error e => cases e; simp [exBind_ok, exBind_err]
    | ok off =>
      cases hde : firstDept j.departments with
      | error e => cases e; simp [exBind_ok, exBind_err]
      | ok dep =>
        cases hre : joinNames (teamRecruiters j) with
        | error e => cases e; simp [exBind_ok, exBind_err]
        | ok recs =>
          cases hco : joinNames (teamCoordinators j) with
          | error e => cases e; simp [exBind_ok, exBind_err]
          | ok cos =>
            rcases h with h | h | h | h | h <;>
              first
                | exact absurd h (by rw [hdo]; exact fun hc => nomatch hc)
                | exact absurd h (by rw [hof]; exact fun hc => nomatch hc)
                | exact absurd h (by rw [hde]; exact fun hc => nomatch hc)
                | exact absurd h (by rw [hre]; exact fun hc => nomatch hc)
                | exact absurd h (by rw [hco]; exact fun hc => nomatch hc)

lemma processJob_cases (now : Int) (j : Job) (h : jvTruthy j.id = true) :
    processJob now j = Except.error () ∨ ∃ r, processJob now j = .ok (some r) := by
  cases hdo : daysOpenGh now j.opened_at with
  | error e =>
    cases e
    exact Or.inl (processJob_err_of_step now j h (Or.inl hdo))
  | ok d =>
    cases hof : firstOffice j.offices with
    | error e =>
      cases e
      exact Or.inl (processJob_err_of_step now j h (Or.inr (Or.inl hof)))
    | ok off =>
      cases hde : firstDept j.departments with
      | error e =>
        cases e
        exact Or.inl (processJob_err_of_step now j h (Or.inr (Or.inr (Or.inl hde))))
      | ok dep =>
        cases hre : joinNames (teamRecruiters j) with
        | error e =>
          cases e
          exact Or.inl (processJob_err_of_step now j h (Or.inr (Or.inr (Or.inr (Or.inl hre)))))
        | ok recs =>
          cases hco : joinNames (teamCoordinators j) with
          | error e =>
            cases e
            exact Or.inl (processJob_err_of_step now j h
              (Or.inr (Or.inr (Or.inr (Or.inr hco)))))
          | ok cos =>
            exact Or.inr ⟨_, processJob_eval now j h d hdo off hof dep hde recs hre cos hco⟩

lemma memberNames_ok (ms : List Member) (h : ∀ m ∈ ms, m.first_name ≠ none) :
    memberNames ms = .ok (ms.map (fun m => m.first_name.getD "")) := by
  induction ms with
  | nil => rfl
  | cons m rest ih =>
    cases hm : m.first_name with
    | none => exact absurd hm (h m (by simp))
    | some n =>
      have := ih (fun x hx => h x (by simp [hx]))
      simp [memberNames, hm, this, Except.map]

lemma memberNames_err (ms : List Member) (m : Member) (hm : m ∈ ms)
    (h : m.first_name = none) : memberNames ms = .error () := by
  induction ms with
  | nil => cases hm
  | cons a rest ih =>
    rcases List.mem_cons.mp hm with rfl | hmem
    · simp [memberNames, h]
    · cases ha : a.first_name with
      | none => simp [memberNames, ha]
      | some n => simp [memberNames, ha, ih hmem, Except.map]

lemma joinNames_ok (ms : List Member) (h : ∀ m ∈ ms, m.first_name ≠ none) :
    joinNames ms = .ok (String.intercalate ", " (ms.map (fun m => m.first_name.getD ""))) := by
  simp [joinNames, memberNames_ok ms h, Except.map]

lemma processJobs_ok (now : Int) :
    ∀ (jobs : List Job) (acc : List Role), pageOk now jobs = true →
      processJobs now jobs acc = (acc ++ jobs.filterMap (jobRole now), true) := by
  intro jobs
  induction jobs with
  | nil => intro acc _; simp [processJobs]
  | cons j rest ih =>
    intro acc h
    simp only [pageOk, List.all_cons, Bool.and_eq_true] at h
    have hrest : pageOk now rest = true := h.2
    cases hpj : processJob now j with
    | error e =>
      rw [hpj] at h
      simp [isErr] at h
    | ok o =>
      cases o with
      | none =>
        simp [processJobs, hpj, List.filterMap_cons, jobRole, ih acc hrest]
      | some r =>
        simp [processJobs, hpj, List.filterMap_cons, jobRole, ih (acc ++ [r]) hrest]

lemma filterMap_length_eq_countP (now : Int) :
    ∀ jobs : List Job, pageOk now jobs = true →
      (jobs.filterMap (jobRole now)).length = jobs.countP (fun j => jvTruthy j.id) := by
  intro jobs
  induction jobs with
  | nil => intro _; rfl
  | cons j rest ih =>
    intro h
    simp only [pageOk, List.all_cons, Bool.and_eq_true] at h
    have hrest := ih h.2
    by_cases ht : jvTruthy j.id = true
    · rcases processJob_cases now j ht with hpj | ⟨r, hpj⟩
      · rw [hpj] at h
        simp [isErr] at h
      · simp [List.filterMap_cons, jobRole, hpj, List.countP_cons, ht, hrest]
    · have hpj : processJob now j = .ok none := by
        unfold processJob
        rw [if_neg ht]
      simp [List.filterMap_cons, jobRole, hpj, List.countP_cons, ht, hrest]

lemma getOpenRolesAux_spec (now : Int) :
    ∀ (pages : List (List Job)) (acc : List Role),
      (pagesBeforeEmpty pages).all (pageOk now) = true →
      (getOpenRolesAux now pages acc).2 = (pagesBeforeEmpty pages).length + 1 ∧
      (getOpenRolesAux now pages acc).1.length =
        acc.length +
          ((pagesBeforeEmpty pages).map (fun p => p.countP (fun j => jvTruthy j.id))).sum := by
  intro pages
  induction pages with
  | nil => intro acc _; simp [getOpenRolesAux, pagesBeforeEmpty]
  | cons p rest ih =>
    intro acc h
    by_cases hp : p.isEmpty = true
    · have hpre : pagesBeforeEmpty (p :: rest) = [] := by
        simp [pagesBeforeEmpty, List.takeWhile_cons, hp]
      simp [getOpenRolesAux, hp, hpre]
    · have hpre : pagesBeforeEmpty (p :: rest) = p :: pagesBeforeEmpty rest := by
        simp [pagesBeforeEmpty, List.takeWhile_cons, hp]
      rw [hpre] at h
      simp only [List.all_cons, Bool.and_eq_true] at h
      have hpj := processJobs_ok now p acc h.1
      have hih := ih (acc ++ p.filterMap (jobRole now)) h.2
      have hcnt := filterMap_length_eq_countP now p h.1
      constructor
      · rw [hpre]
        simp only [getOpenRolesAux, if_neg hp, hpj]
        simp [hih.1]
      · rw [hpre]
        simp only [getOpenRolesAux, if_neg hp, hpj]
        simp only [List.map_cons, List.sum_cons]
        simp [hih.2, hcnt, List.length_append]
        omega

/-- C1 (amended): provided every record on the requested pages processes
without raising (timestamps absent or parseable, hiring-team members named,
offices and departments absent or non-empty), `get_open_roles` stops
issuing page requests at the first empty page and returns one Role per
record with a truthy (in particular, present) identifier on the pages
before it. -/
theorem get_open_roles_pagination (now : Int) (pages : List (List Job))
    (h : (pagesBeforeEmpty pages).all (pageOk now) = true) :
    (getOpenRoles now pages).2 = (pagesBeforeEmpty pages).length + 1 ∧
    (getOpenRoles now pages).1.length =
      ((pagesBeforeEmpty pages).map (fun p => p.countP (fun j => jvTruthy j.id))).sum := by
  have h2 := getOpenRolesAux_spec now pages [] h
  exact ⟨h2.1, by simpa [getOpenRoles] using h2.2⟩

def jobScen1 : Job :=
  { id := .num 101, name := some "Engineer", opened_at := none, offices := none,
    departments := none, hiring_team := none }

def jobScen2 : Job :=
  { id := .num 102, name := some "Artist", opened_at := some "2024-01-15T00:00:00.000000Z",
    offices := none, departments := none, hiring_team := none }

def scenarioPages : List (List Job) := [[jobScen1, jobScen2], []]

theorem get_open_roles_pagination_witness :
    (getOpenRoles 1705276800000000 scenarioPages).2 = 2 ∧
    (getOpenRoles 1705276800000000 scenarioPages).1.length = 2 := by
  have h := get_open_roles_pagination 1705276800000000 scenarioPages (by decide)
  exact ⟨h.1.trans (by decide), h.2.trans (by decide)⟩

def jobIdZero : Job :=
  { id := .num 0, name := some "Zero", opened_at := none, offices := none,
    departments := none, hiring_team := none }

def jobBadTs : Job :=
  { id := .num 9, name := some "Bad", opened_at := some "January 5, 2024",
    offices := none, departments := none, hiring_team := none }

def c1pages : List (List Job) := [[jobIdZero, jobBadTs]]

/-- C1 is false as stated: on a page holding a record with the present but
falsy id `0` and a record whose `opened_at` does not parse, the claim
predicts 2 Roles after 2 page requests (2 records on the non-empty pages,
none with a missing identifier, page 2 empty); the code skips the falsy id,
raises on the bad timestamp, aborts pagination after 1 request and returns
0 Roles. -/
theorem get_open_roles_count_counterexample :
    (getOpenRoles 0 c1pages).1.length = 0 ∧ (getOpenRoles 0 c1pages).2 = 1 ∧
    ¬ ((getOpenRoles 0 c1pages).1.length = 2 ∧ (getOpenRoles 0 c1pages).2 = 2) := by
  decide

/-- C4 (amended): a record whose `opened_at` is present (truthy) but fails
to parse makes the inline `days_open` expression raise; the page-level
handler catches it, the record contributes no Role, pagination aborts, and
`get_open_roles` returns only the roles accumulated before the failing
record. -/
theorem timestamp_parse_failure_aborts (now : Int) (j : Job) (s : String)
    (h1 : j.opened_at = some s) (h2 : s ≠ "") (h3 : parseTimestamp s = none)
    (h4 : jvTruthy j.id = true) :
    processJob now j = .error () ∧
    (∀ rest acc, processJobs now (j :: rest) acc = (acc, false)) ∧
    (∀ rest pages, getOpenRoles now ((j :: rest) :: pages) = ([], 1)) := by
  have hd : daysOpenGh now j.opened_at = .error () := by
    rw [h1]
    simp [daysOpenGh, h2, h3]
  have hpj : processJob now j = .error () := processJob_err_of_step now j h4 (Or.inl hd)
  refine ⟨hpj, fun rest acc => by simp [processJobs, hpj], fun rest pages => ?_⟩
  have hjobs : processJobs now (j :: rest) [] = ([], false) := by simp [processJobs, hpj]
  simp [getOpenRoles, getOpenRolesAux, hjobs]

def jobBadDate : Job :=
  { id := .num 7, name := some "Producer", opened_at := some "05/01/2024",
    offices := none, departments := none, hiring_team := none }

def jobAfterBad : Job :=
  { id := .num 8, name := some "Analyst", opened_at := none, offices := none,
    departments := none, hiring_team := none }

def c4pages : List (List Job) := [[jobBadDate], [jobAfterBad]]

/-- C4 is false as stated: with page 1 holding one record whose `opened_at`
is `"05/01/2024"` (present, unparseable) and page 2 holding a good record,
the claim predicts a Role with the `"N/A"` sentinel for the bad record and
pagination continuing to page 2; the code instead returns no Role at all
and stops after the single page-1 request. -/
theorem timestamp_parse_failure_counterexample :
    (getOpenRoles 0 c4pages).1 = [] ∧ (getOpenRoles 0 c4pages).2 = 1 ∧
    ¬ ((getOpenRoles 0 c4pages).1.length = 2 ∧ (getOpenRoles 0 c4pages).2 = 3) := by
  decide

theorem timestamp_parse_failure_aborts_witness :
    processJob 0 jobBadDate = .error () ∧ getOpenRoles 0 [[jobBadDate]] = ([], 1) := by
  have h := timestamp_parse_failure_aborts 0 jobBadDate "05/01/2024" rfl (by decide)
    (by decide) (by decide)
  exact ⟨h.1, h.2.2 [] []⟩

/-- C7 (amended): a missing or falsy identifier makes the record be
silently skipped; a missing `opened_at` yields the `"N/A"` sentinel; a
missing `hiring_team` (or missing member lists) yields empty recruiters and
coordinators strings; when no step raises, the produced Role carries the
comma-joined first names of the hiring-team members.  However a hiring-team
member WITHOUT a `first_name` key raises `KeyError`, so that record
produces no Role and the page processing aborts — that anomaly is not
tolerated via defaults. -/
theorem data_shape_anomalies (now : Int) (j : Job) :
    (jvTruthy j.id = false → processJob now j = .ok none) ∧
    (j.opened_at = none → daysOpenGh now j.opened_at = .ok .na) ∧
    (j.hiring_team = none →
      joinNames (teamRecruiters j) = .ok "" ∧ joinNames (teamCoordinators j) = .ok "") ∧
    (∀ (_ : jvTruthy j.id = true) (d : DaysOpen)
        (_ : daysOpenGh now j.opened_at = .ok d)
        (off : Office) (_ : firstOffice j.offices = .ok off)
        (dep : Dept) (_ : firstDept j.departments = .ok dep)
        (_ : ∀ m ∈ teamRecruiters j ++ teamCoordinators j, m.first_name ≠ none),
      ∃ r, processJob now j = .ok (some r) ∧
        r.recruiters =
          String.intercalate ", " ((teamRecruiters j).map (fun m => m.first_name.getD "")) ∧
        r.coordinators =
          String.intercalate ", " ((teamCoordinators j).map (fun m => m.first_name.getD ""))) ∧
    (∀ m ∈ teamRecruiters j, m.first_name = none → jvTruthy j.id = true →
      processJob now j = .error ()) := by
  refine ⟨?_, ?_, ?_, ?_, ?_⟩
  · intro h
    unfold processJob
    rw [if_neg (by simp [h])]
  · intro h
    rw [h]
    rfl
  · intro h
    constructor <;> simp [joinNames, teamRecruiters, teamCoordinators, h, memberNames,
      Except.map, String.intercalate]
  · intro h1 d hdo off hof dep hde hteam
    have hre := joinNames_ok (teamRecruiters j)
      (fun m hm => hteam m (List.mem_append.mpr (Or.inl hm)))
    have hco := joinNames_ok (teamCoordinators j)
      (fun m hm => hteam m (List.mem_append.mpr (Or.inr hm)))
    exact ⟨_, processJob_eval now j h1 d hdo off hof dep hde _ hre _ hco, rfl, rfl⟩
  · intro m hm hname h1
    have herr : joinNames (teamRecruiters j) = .error () := by
      simp [joinNames, memberNames_err (teamRecruiters j) m hm hname, Except.map]
    exact processJob_err_of_step now j h1 (Or.inr (Or.inr (Or.inr (Or.inl herr))))

def jobNoFirstName : Job :=
  { id := .num 3, name := some "Designer", opened_at := none, offices := none,
    departments := none,
    hiring_team := some { recruiters := some [{ first_name := none }], coordinators := none } }

/-- C7 is false as stated: a record with an incomplete hiring-team
structure — a recruiter entry without a `first_name` — raises `KeyError`
instead of being tolerated via defaults: processing aborts and the record
contributes no Role (the claim predicts a Role whose recruiters field is
the joined first names). -/
theorem hiring_team_incomplete_counterexample :
    processJob 0 jobNoFirstName = .error () ∧
    (getOpenRoles 0 [[jobNoFirstName]]).1 = [] ∧
    (getOpenRoles 0 [[jobNoFirstName]]).1.length ≠ 1 := by
  decide

def jobTeamNone : Job :=
  { id := .num 5, name := some "Writer", opened_at := none, offices := none,
    departments := none, hiring_team := none }

theorem data_shape_anomalies_witness :
    joinNames (teamRecruiters jobTeamNone) = .ok "" ∧
    joinNames (teamCoordinators jobTeamNone) = .ok "" ∧
    processJob 0 jobNoFirstName = .error () := by
  have h2 := (data_shape_anomalies 0 jobTeamNone).2.2.1 rfl
  have h3 := (data_shape_anomalies 0 jobNoFirstName).2.2.2.2
    { first_name := none } (by decide) rfl (by decide)
  exact ⟨h2.1, h2.2, h3⟩

end Greenhouse
